import Mathlib

/-!
Verification of the `VisionMapper` step-to-image mapping engine
(`symtrain-image/vision_mapper.py`) against its natural-language
specification.

The Python code is shallowly embedded as executable Lean definitions:
  * strings are Lean `String`s; Python `str.lower` / `str.upper` /
    `str.isupper` are modelled for the ASCII range, which is the range the
    program's keyword tables and type vocabulary live in;
  * Python floats are modelled by `ℚ` (all score constants are exact
    decimal fractions, so rational arithmetic mirrors the accumulation);
  * Python dicts with optional keys become structures of `Option` fields;
  * Python `dict.get(k, d)` becomes `Option.getD`;
  * the filesystem probe in `process_simulation_with_vision` is abstracted
    over a pure existence predicate `String → Bool`;
  * the fallible report builder `create_mapping_report` returns `Except`.
-/

namespace VisionMapper

attribute [local semireducible] Rat.add Rat.mul Rat.sub Rat.inv Rat.ofScientific

set_option maxRecDepth 8000

/-! ## ASCII case conversion (model of Python `str.lower` / `str.upper`) -/

/-- Model of Python `str.lower` for ASCII text: lower every character. -/
def lowerStr (s : String) : String :=
  String.mk (s.data.map Char.toLower)

/-- Model of Python `str.upper` for ASCII text: upper every character. -/
def upperStr (s : String) : String :=
  String.mk (s.data.map Char.toUpper)

/-! ## Whitespace splitting (model of Python `str.split()`) -/

/-- Accumulator loop for `splitWs`: `acc` holds the current word reversed. -/
def splitWsAux : List Char → List Char → List String
  | [], acc => if acc.isEmpty then [] else [String.mk acc.reverse]
  | c :: cs, acc =>
    if c.isWhitespace then
      (if acc.isEmpty then [] else [String.mk acc.reverse]) ++ splitWsAux cs []
    else splitWsAux cs (c :: acc)

/-- Model of Python `str.split()` with no argument: split on whitespace
runs and drop empty chunks. -/
def splitWs (s : String) : List String :=
  splitWsAux s.data []

/-- Model of Python `str.strip()` with no argument: drop leading and
trailing whitespace. -/
def pyStrip (s : String) : String :=
  String.mk (((s.data.dropWhile Char.isWhitespace).reverse.dropWhile
    Char.isWhitespace).reverse)

/-! ## Substring test (model of Python `needle in hay`) -/

/-- Bool test that one character list is a prefix of another. -/
def isPrefixCharList : List Char → List Char → Bool
  | [], _ => true
  | _ :: _, [] => false
  | a :: as, b :: bs => a == b && isPrefixCharList as bs

/-- Bool test that one character list occurs contiguously in another. -/
def isSubstrCharList : List Char → List Char → Bool
  | n, [] => isPrefixCharList n []
  | n, c :: rest => isPrefixCharList n (c :: rest) || isSubstrCharList n rest

/-- Model of the Python substring test `needle in hay` on strings. -/
def isSubstrS (needle hay : String) : Bool :=
  isSubstrCharList needle.data hay.data

/-! ## Model of `difflib.SequenceMatcher.ratio`

`fuzzy_match_score` in the source calls the Python standard library's
`SequenceMatcher(None, a.lower(), b.lower()).ratio()`.  For strings shorter
than 200 characters (no autojunk) and no junk predicate the ratio is
`2*M/T` where `T` is the total length and `M` is the total size of the
matching blocks: recursively take the longest matching block (earliest end
position in `a`, then in `b`, among the longest) and recurse on the pieces
to its left and to its right. -/

/-- Length of the longest common prefix of two character lists. -/
def commonPrefixLen : List Char → List Char → ℕ
  | a :: as, b :: bs => if a == b then commonPrefixLen as bs + 1 else 0
  | _, _ => 0

/-- Length of the longest common suffix of two character lists. -/
def commonSuffixLen (a b : List Char) : ℕ :=
  commonPrefixLen a.reverse b.reverse

/-- Longest matching block of two character lists, as `(i, j, size)`:
`a[i:i+size] = b[j:j+size]`, `size` maximal, ties broken by the earliest
end position in `a` and then in `b` (matching the order in which
`SequenceMatcher.find_longest_match` discovers blocks). -/
def findLongestMatch (a b : List Char) : ℕ × ℕ × ℕ :=
  let pairs := (List.range a.length).flatMap
    (fun i2 => (List.range b.length).map (fun j2 => (i2, j2)))
  pairs.foldl
    (fun best p =>
      let k := commonSuffixLen (a.take (p.1 + 1)) (b.take (p.2 + 1))
      if best.2.2 < k then (p.1 + 1 - k, p.2 + 1 - k, k) else best)
    (0, 0, 0)

/-- Total size of all matching blocks, with explicit recursion fuel (the
fuel `|a| + |b|` always suffices because every recursive call strictly
shrinks the combined length). -/
def matchTotalFuel : ℕ → List Char → List Char → ℕ
  | 0, _, _ => 0
  | fuel + 1, a, b =>
    let m := findLongestMatch a b
    if m.2.2 = 0 then 0
    else
      m.2.2 + matchTotalFuel fuel (a.take m.1) (b.take m.2.1)
        + matchTotalFuel fuel (a.drop (m.1 + m.2.2)) (b.drop (m.2.1 + m.2.2))

/-- Model of `SequenceMatcher(None, a, b).ratio()` (`2*M/T`; `1.0` when both
strings are empty, as in `difflib._calculate_ratio`). -/
def sequenceMatcherScore (a b : String) : ℚ :=
  let A := a.data
  let B := b.data
  let total := A.length + B.length
  if total = 0 then 1
  else 2 * (matchTotalFuel total A B : ℚ) / (total : ℚ)

/-- Model of `fuzzy_match_score(str1, str2)`: similarity of the lowered
strings via `SequenceMatcher.ratio`. -/
def fuzzy_match_score (str1 str2 : String) : ℚ :=
  sequenceMatcherScore (lowerStr str1) (lowerStr str2)

/-! ## Data model

Hotspots arrive as JSON dictionaries in one of two schemas (canonical
`text`/`coordinates`, or alternate `name`/`type`/`settings`); a structure of
`Option` fields models key presence. -/

/-- Pixel coordinates of a normalized hotspot (the source stores Python
ints produced by `int(...)`). -/
structure Coordinates where
  x : ℤ
  y : ℤ
  width : ℤ
  height : ℤ
deriving DecidableEq, Repr

/-- The `settings` sub-dictionary of an alternate-schema hotspot; all keys
optional, read with `settings.get(key, default)`. -/
structure SettingsDict where
  positionX : Option ℚ
  positionY : Option ℚ
  width : Option ℚ
  height : Option ℚ
deriving DecidableEq, Repr

/-- The value stored under the `settings` key: either a mapping or some
non-mapping JSON value (the source tests `isinstance(settings, dict)`). -/
inductive SettingsVal where
  | dict (d : SettingsDict)
  | nonDict
deriving DecidableEq, Repr

/-- A hotspot record; `none` models an absent key. -/
structure Hotspot where
  text : Option String
  coordinates : Option Coordinates
  name : Option String
  hotspotType : Option String
  settings : Option SettingsVal
deriving DecidableEq, Repr

/-- A visual content item: one image id plus its hotspots (the spec's input
contract gives every visual item a string `fileId`). -/
structure VisualItem where
  fileId : String
  hotspots : List Hotspot
deriving DecidableEq, Repr

/-! ## `normalize_hotspot` -/

/-- Python `int(q)` on a rational: truncation toward zero (`Int.div` is
T-division, and a rational's reduced numerator/denominator quotient
truncates exactly like the real value). -/
def pyInt (q : ℚ) : ℤ :=
  Int.tdiv q.num (q.den : ℤ)

/-- The `type_mapping` dictionary inside `normalize_hotspot`. -/
def type_mapping : List (String × String) :=
  [("button", "button"), ("text_field", "input_field"),
   ("audio", "audio"), ("highlight", "highlight")]

/-- Model of `d.get(key, dflt)` on an association-list dictionary. -/
def lookupStr (m : List (String × String)) (key dflt : String) : String :=
  match m.find? (fun p => p.1 == key) with
  | some p => p.2
  | none => dflt

/-- Model of `VisionMapper.normalize_hotspot(hotspot, image_size)`: a
hotspot already carrying `text` and `coordinates` is returned unchanged;
otherwise the alternate schema is converted (text from `name`, type
lowered through `type_mapping`, coordinates denormalized from `settings`,
with the fixed box `(0, 0, 100, 40)` when `settings` is present but not a
mapping). -/
def normalize_hotspot (hotspot : Hotspot) (image_size : ℤ × ℤ) : Hotspot :=
  if hotspot.text.isSome ∧ hotspot.coordinates.isSome then hotspot
  else
    let text := hotspot.name.getD ""
    let hotspot_type := lowerStr (hotspot.hotspotType.getD "")
    let mappedType := lookupStr type_mapping hotspot_type hotspot_type
    let coords :=
      match hotspot.settings.getD (SettingsVal.dict ⟨none, none, none, none⟩) with
      | SettingsVal.dict s =>
        let pos_x := s.positionX.getD 0
        let pos_y := s.positionY.getD 0
        let width := s.width.getD 0.1
        let height := s.height.getD 0.05
        (⟨pyInt (pos_x * (image_size.1 : ℚ)), pyInt (pos_y * (image_size.2 : ℚ)),
          pyInt (width * (image_size.1 : ℚ)), pyInt (height * (image_size.2 : ℚ))⟩ : Coordinates)
      | SettingsVal.nonDict => (⟨0, 0, 100, 40⟩ : Coordinates)
    ⟨some text, some coords, none, some mappedType, none⟩

/-! ## Keyword tables of `VisionMapper.__init__` -/

/-- The `action_keywords` table: action category to synonym list. -/
def action_keywords : List (String × List String) :=
  [("click", ["click", "press", "tap", "select", "choose", "hit", "push"]),
   ("enter", ["enter", "type", "input", "fill", "write", "provide", "insert", "add"]),
   ("navigate", ["navigate", "go to", "open", "access", "visit", "move to", "switch to"]),
   ("update", ["update", "change", "modify", "edit", "alter", "revise", "adjust"]),
   ("view", ["view", "see", "check", "look at", "review", "examine", "inspect"]),
   ("submit", ["submit", "save", "confirm", "apply", "complete", "finish"]),
   ("search", ["search", "find", "lookup", "locate", "seek"])]

/-- The `element_types` table. -/
def element_types : List String :=
  ["button", "link", "menu", "dropdown", "field", "input",
   "checkbox", "radio", "tab", "icon", "text", "form", "box"]

/-- The `element_synonyms` table: domain category to synonym list. -/
def element_synonyms : List (String × List String) :=
  [("payment", ["payment", "pay", "billing", "card", "credit", "transaction"]),
   ("order", ["order", "purchase", "transaction", "booking", "reservation"]),
   ("account", ["account", "profile", "settings", "preferences"]),
   ("address", ["address", "location", "shipping", "delivery"]),
   ("insurance", ["insurance", "policy", "claim", "coverage"]),
   ("contact", ["contact", "phone", "email", "call", "reach"])]

/-! ## `extract_keywords_from_step` -/

/-- Quote characters recognized by the regex `["\x27]([^"\x27]+)["\x27]`. -/
def isQuoteChar (c : Char) : Bool :=
  c == '"' || c.toNat == 39

/-- Split off the maximal run of non-quote characters. -/
def takeRun : List Char → List Char × List Char
  | [] => ([], [])
  | c :: cs =>
    if isQuoteChar c then ([], c :: cs)
    else
      let r := takeRun cs
      (c :: r.1, r.2)

/-- Model of `re.findall` for the quoted-text pattern, with fuel (the
initial fuel `|input|` suffices because each recursive call consumes at
least one character). -/
def findQuotedF : ℕ → List Char → List String
  | 0, _ => []
  | _, [] => []
  | fuel + 1, c :: rest =>
    if isQuoteChar c then
      match takeRun rest with
      | (run, _ :: rest3) =>
        if run.isEmpty then findQuotedF fuel rest
        else String.mk run :: findQuotedF fuel rest3
      | (_, []) => []
    else findQuotedF fuel rest

/-- All quoted fragments of a step, in order. -/
def findQuoted (s : String) : List String :=
  findQuotedF s.data.length s.data

/-- Model of Python `ch.isupper()` for ASCII. -/
def isUpperAlpha (c : Char) : Bool :=
  65 ≤ c.toNat && c.toNat ≤ 90

/-- Characters kept by `re.sub(r'[^\w\s]', '', word)`: word characters and
whitespace. -/
def isWordOrSpaceChar (c : Char) : Bool :=
  c.isAlphanum || c == '_' || c.isWhitespace

/-- Model of `re.sub(r'[^\w\s]', '', word)`. -/
def cleanWord (w : String) : String :=
  String.mk (w.data.filter isWordOrSpaceChar)

/-- Keywords extracted from one step. -/
structure StepKeywords where
  actions : List String
  elements : List String
  targets : List String
deriving DecidableEq, Repr

/-- Capitalized words excluded from targets. -/
def capitalized_exclusions : List String :=
  ["Click", "Select", "Enter", "Navigate", "Open"]

/-- Model of `VisionMapper.extract_keywords_from_step(step)`. -/
def extract_keywords_from_step (step : String) : StepKeywords :=
  let step_lower := lowerStr step
  let actions := action_keywords.filterMap
    (fun p => if p.2.any (fun v => isSubstrS v step_lower) then some p.1 else none)
  let elements := element_types.filter (fun e => isSubstrS e step_lower)
  let quoted := findQuoted step
  let words := splitWs step
  let caps := words.enum.filterMap (fun iw =>
    if 0 < iw.1 ∧ 3 < iw.2.length ∧ isUpperAlpha (iw.2.data.headD ' ') then
      let clean := cleanWord iw.2
      if clean ≠ "" ∧ clean ∉ capitalized_exclusions then some clean else none
    else none)
  ⟨actions, elements, quoted ++ caps⟩

/-! ## `calculate_relevance_score`

The source accumulates a float `score` through six blocks (generic-name
penalty, domain-context bonus, target matching, type matching, shared
meaningful words, cross-word fuzzy bonus) and finally clamps with
`max(0.0, min(score, 2.0))`.  Over `ℚ` the accumulation is exactly the sum
of the six blocks, so the embedding computes each block as a named
component and sums them before clamping. -/

/-- The `generic_terms` set of `calculate_relevance_score`. -/
def generic_terms : Finset String :=
  (["click", "button", "text", "field", "input", "next", "back",
    "submit", "ok", "yes", "no", "continue", "cancel", "close",
    "audio", "for", "the"] : List String).toFinset

/-- The `stop_words` set of `calculate_relevance_score`. -/
def stop_words : Finset String :=
  (["the", "a", "an", "and", "or", "but", "in", "on", "at", "to",
    "for", "of", "with", "by", "from", "is", "are", "was", "were",
    "my", "your", "can", "you", "help", "me", "that", "this"] : List String).toFinset

/-- Model of `expand_keywords_with_synonyms(keywords)`: the keyword set
united, for each keyword, with the first synonym group containing its
lowering (Python builds a `set`, so the result is order-free). -/
def expand_keywords_with_synonyms (keywords : List String) : Finset String :=
  keywords.foldl
    (fun expanded keyword =>
      match element_synonyms.find? (fun p => p.2.contains (lowerStr keyword)) with
      | some p => expanded ∪ p.2.toFinset
      | none => expanded)
    keywords.toFinset

/-- Step tokens used by the shared-words block:
`set(step.lower().split()) - stop_words`. -/
def stepWordSet (step : String) : Finset String :=
  (splitWs (lowerStr step)).toFinset \ stop_words

/-- Hotspot tokens used by the shared-words block (the argument is the
already-lowered hotspot text): `set(hotspot_text.split()) - stop_words`. -/
def hotspotWordSet (hotspot_text : String) : Finset String :=
  (splitWs hotspot_text).toFinset \ stop_words

/-- Generic-name penalty block: `-0.15` when the trimmed hotspot text is
exactly a generic term. -/
def genericPenaltyOf (hotspot_text : String) : ℚ :=
  if pyStrip hotspot_text ∈ generic_terms then -0.15 else 0

/-- Domain-context bonus block: `match_count * 0.5` for expanded context
keywords occurring in the hotspot text, plus `max_ratio * 0.3` over the
non-occurring keywords whose fuzzy ratio exceeds `0.7`; zero when the
request context is empty. -/
def domainBonusOf (request_context hotspot_text : String) : ℚ :=
  if request_context = "" then 0
  else
    let request_lower := lowerStr request_context
    let domain_keywords := (splitWs request_lower).filter
      (fun w => decide (4 < w.length ∧ w ∉ stop_words))
    let expanded := expand_keywords_with_synonyms domain_keywords
    let matched := expanded.filter (fun k => isSubstrS k hotspot_text = true)
    let fuzzyQualifying := (expanded.filter (fun k => ¬ isSubstrS k hotspot_text = true)).filter
      (fun k => (0.7 : ℚ) < fuzzy_match_score k hotspot_text)
    (if 0 < matched.card then (matched.card : ℚ) * 0.5 else 0)
    + (if fuzzyQualifying.Nonempty then
        ((fuzzyQualifying.image (fun k => fuzzy_match_score k hotspot_text)).max.unbot' 0) * 0.3
      else 0)

/-- Target-matching block: for each extracted target, `+1.2` on exact
equality with the trimmed hotspot text, else `+0.7` on substring either
way, else `ratio * 0.6` when the fuzzy ratio exceeds `0.75`. -/
def targetBonusOf (targets : List String) (hotspot_text : String) : ℚ :=
  targets.foldl
    (fun score target =>
      let target_lower := lowerStr target
      if target_lower = pyStrip hotspot_text then score + 1.2
      else if isSubstrS target_lower hotspot_text || isSubstrS hotspot_text target_lower then
        score + 0.7
      else
        let fuzzy_score := fuzzy_match_score target_lower hotspot_text
        if (0.75 : ℚ) < fuzzy_score then score + fuzzy_score * 0.6 else score)
    0

/-- Type-matching block: `+0.35` for each of the three type/action
alignments; zero when the hotspot type is empty. -/
def typeBonusOf (hotspot_type : String) (actions : List String) : ℚ :=
  if hotspot_type = "" then 0
  else
    (if isSubstrS "button" hotspot_type ∧ "click" ∈ actions then 0.35 else 0)
    + (if (isSubstrS "input" hotspot_type ∨ isSubstrS "field" hotspot_type
          ∨ isSubstrS "text_field" hotspot_type) ∧ "enter" ∈ actions then 0.35 else 0)
    + (if isSubstrS "menu" hotspot_type ∧ "navigate" ∈ actions then 0.35 else 0)

/-- Shared-meaningful-words block: when the (stop-word-free) token sets
intersect, `0.15` per common token of length `> 3` that is not a generic
term (nested emptiness guards as in the source). -/
def sharedBonusOf (common : Finset String) : ℚ :=
  if common.Nonempty then
    let meaningful := common.filter (fun w => 3 < w.length ∧ w ∉ generic_terms)
    if meaningful.Nonempty then (meaningful.card : ℚ) * 0.15 else 0
  else 0

/-- Cross-word fuzzy block: only when there are no common tokens and both
token sets are nonempty, `max_ratio * 0.2` over pairs of tokens of length
`> 4` whose maximal fuzzy ratio exceeds `0.8`. -/
def crossFuzzyBonusOf (step_words hotspot_words common : Finset String) : ℚ :=
  if common = ∅ ∧ hotspot_words.Nonempty ∧ step_words.Nonempty then
    let pairs := (step_words.filter (fun w => 4 < w.length)) ×ˢ
      (hotspot_words.filter (fun w => 4 < w.length))
    let max_fuzzy := (pairs.image (fun p => fuzzy_match_score p.1 p.2)).max.unbot' 0
    if (0.8 : ℚ) < max_fuzzy then max_fuzzy * 0.2 else 0
  else 0

/-- The six score components of `calculate_relevance_score`, one per
accumulation block of the source. -/
structure ScoreParts where
  genericPenalty : ℚ
  domainBonus : ℚ
  targetBonus : ℚ
  typeBonus : ℚ
  sharedBonus : ℚ
  crossFuzzyBonus : ℚ
deriving DecidableEq, Repr

/-- Compute all six accumulation blocks of
`calculate_relevance_score(step, hotspot, request_context)`. -/
def scoreParts (step : String) (hotspot : Hotspot) (request_context : String) : ScoreParts :=
  let norm := normalize_hotspot hotspot (1200, 800)
  let step_keywords := extract_keywords_from_step step
  let hotspot_text := lowerStr (norm.text.getD "")
  let hotspot_type := lowerStr (norm.hotspotType.getD "")
  let step_words := stepWordSet step
  let hotspot_words := hotspotWordSet hotspot_text
  let common := step_words ∩ hotspot_words
  ⟨genericPenaltyOf hotspot_text,
   domainBonusOf request_context hotspot_text,
   targetBonusOf step_keywords.targets hotspot_text,
   typeBonusOf hotspot_type step_keywords.actions,
   sharedBonusOf common,
   crossFuzzyBonusOf step_words hotspot_words common⟩

/-- The accumulated score of `calculate_relevance_score` before the final
clamp. -/
def preClampScore (step : String) (hotspot : Hotspot) (request_context : String) : ℚ :=
  let p := scoreParts step hotspot request_context
  p.genericPenalty + p.domainBonus + p.targetBonus + p.typeBonus
    + p.sharedBonus + p.crossFuzzyBonus

/-- Model of `VisionMapper.calculate_relevance_score(step, hotspot,
request_context)`: the accumulated score clamped by
`max(0.0, min(score, 2.0))`. -/
def calculate_relevance_score (step : String) (hotspot : Hotspot)
    (request_context : String) : ℚ :=
  max 0 (min (preClampScore step hotspot request_context) 2)

/-! ## `map_steps_to_images`

The assignment loop keeps a per-invocation `used_images` counter
(`String → ℕ`, initially zero) and, per step, scans every non-AUDIO hotspot
of every visual item, keeps candidates whose raw score reaches the
threshold, and picks greedily by diversity-adjusted score subject to the
reuse cap.  Debug output is modelled as a list of structured trace events
carrying exactly the data the Python `print` calls format. -/

/-- One mapping produced for one step (the `best_match` dictionary of the
source; `sequence_number` is initialized to `None` and never written). -/
structure Mapping where
  step_index : ℕ
  step : String
  file_id : Option String
  hotspot : Option Hotspot
  relevance_score : ℚ
  sequence_number : Option ℕ
deriving DecidableEq, Repr

/-- One entry of the per-step `candidates` list. -/
structure Candidate where
  file_id : String
  hotspot : Hotspot
  score : ℚ
  adjusted_score : ℚ
deriving DecidableEq, Repr

/-- Structured model of one debug `print` of `map_steps_to_images`. -/
inductive TraceEvent where
  | header (stepCount itemCount : ℕ) (threshold : ℚ)
  | contextNote (request_context : String)
  | stepHeader (idx : ℕ) (step : String)
  | candidateScore (fileId : String) (hotspotName : String) (score : ℚ)
  | bestPick (fileId : String) (score adjusted : ℚ)
  | alternativePick (fileId : String) (score : ℚ)
  | reuseLimitNote
  | noMatchNote (threshold : ℚ)
deriving DecidableEq, Repr

/-- The scan-time filter: `hotspot.get('type', '').upper() == 'AUDIO'`
skips the hotspot. -/
def nonAudioB (h : Hotspot) : Bool :=
  upperStr (h.hotspotType.getD "") != "AUDIO"

/-- Candidate list for one step: every non-AUDIO hotspot of every visual
item whose score reaches the threshold, with the diversity-adjusted score
`score - reuse_count * diversity_penalty`. -/
def candidatesFor (visual_items : List VisualItem) (step request_context : String)
    (threshold : ℚ) (used : String → ℕ) (diversity_penalty : ℚ) : List Candidate :=
  visual_items.flatMap fun v =>
    (v.hotspots.filter nonAudioB).filterMap fun h =>
      let score := calculate_relevance_score step h request_context
      if threshold ≤ score then
        some ⟨v.fileId, normalize_hotspot h (1200, 800), score,
          score - (used v.fileId : ℚ) * diversity_penalty⟩
      else none

/-- Debug trace of the per-hotspot score prints (emitted for positive
scores only, before the threshold test, exactly as in the source). -/
def traceCandidates (visual_items : List VisualItem) (step request_context : String) :
    List TraceEvent :=
  visual_items.flatMap fun v =>
    (v.hotspots.filter nonAudioB).filterMap fun h =>
      let score := calculate_relevance_score step h request_context
      if 0 < score then
        some (TraceEvent.candidateScore v.fileId (h.name.getD "N/A") score)
      else none

/-- Model of Python `max(candidates, key=lambda x: x['adjusted_score'])`:
first element whose key no later element strictly exceeds. -/
def pyMax (c0 : Candidate) (rest : List Candidate) : Candidate :=
  rest.foldl (fun b c => if b.adjusted_score < c.adjusted_score then c else b) c0

/-- Stable descending insertion by adjusted score. -/
def insertDesc (c : Candidate) : List Candidate → List Candidate
  | [] => [c]
  | d :: ds =>
    if d.adjusted_score ≤ c.adjusted_score then c :: d :: ds else d :: insertDesc c ds

/-- Model of `sorted(candidates, key=lambda x: x['adjusted_score'],
reverse=True)`: stable descending sort. -/
def sortDesc : List Candidate → List Candidate
  | [] => []
  | c :: cs => insertDesc c (sortDesc cs)

/-- Outcome of the per-step selection, distinguishing the four branches of
the source (needed because each prints a different debug line). -/
inductive Choice where
  | noCandidates
  | primary (c : Candidate)
  | alternative (c : Candidate)
  | exhausted
deriving DecidableEq, Repr

/-- The per-step selection: best candidate by adjusted score if its image
is under the reuse cap, else the first candidate after the best (in
descending adjusted order) whose image is under the cap, else no match. -/
def choiceOf (cands : List Candidate) (used : String → ℕ) (max_image_reuse : ℕ) : Choice :=
  match cands with
  | [] => Choice.noCandidates
  | c0 :: rest =>
    let best := pyMax c0 rest
    if used best.file_id < max_image_reuse then Choice.primary best
    else
      match ((sortDesc (c0 :: rest)).drop 1).find?
          (fun c => decide (used c.file_id < max_image_reuse)) with
      | some c => Choice.alternative c
      | none => Choice.exhausted

/-- Increment one image's reuse counter. -/
def bump (used : String → ℕ) (fid : String) : String → ℕ :=
  fun x => if x = fid then used x + 1 else used x

/-- The initial `best_match` dictionary for one step. -/
def defaultMapping (idx : ℕ) (step : String) : Mapping :=
  ⟨idx, step, none, none, 0, none⟩

/-- The `best_match` dictionary after a successful assignment. -/
def assignedMapping (idx : ℕ) (step : String) (c : Candidate) : Mapping :=
  ⟨idx, step, some c.file_id, some c.hotspot, c.score, none⟩

/-- Process one step of the assignment loop: build candidates, select,
update the reuse counter, and emit the debug trace of this iteration. -/
def processStep (debug : Bool) (visual_items : List VisualItem) (threshold : ℚ)
    (request_context : String) (max_image_reuse : ℕ) (diversity_penalty : ℚ)
    (idx : ℕ) (step : String) (used : String → ℕ) :
    Mapping × (String → ℕ) × List TraceEvent :=
  let cands := candidatesFor visual_items step request_context threshold used diversity_penalty
  let stepTr := if debug then
      TraceEvent.stepHeader idx step :: traceCandidates visual_items step request_context
    else []
  match choiceOf cands used max_image_reuse with
  | Choice.noCandidates =>
    (defaultMapping idx step, used,
     stepTr ++ if debug then [TraceEvent.noMatchNote threshold] else [])
  | Choice.primary c =>
    (assignedMapping idx step c, bump used c.file_id,
     stepTr ++ if debug then [TraceEvent.bestPick c.file_id c.score c.adjusted_score] else [])
  | Choice.alternative c =>
    (assignedMapping idx step c, bump used c.file_id,
     stepTr ++ if debug then [TraceEvent.alternativePick c.file_id c.score] else [])
  | Choice.exhausted =>
    (defaultMapping idx step, used,
     stepTr ++ if debug then [TraceEvent.reuseLimitNote] else [])

/-- The assignment loop over the remaining steps, threading the reuse
counter and collecting mappings and trace in order. -/
def mapGo (debug : Bool) (visual_items : List VisualItem) (threshold : ℚ)
    (request_context : String) (max_image_reuse : ℕ) (diversity_penalty : ℚ) :
    ℕ → (String → ℕ) → List String → List Mapping × (String → ℕ) × List TraceEvent
  | _, used, [] => ([], used, [])
  | idx, used, step :: rest =>
    let r := processStep debug visual_items threshold request_context
      max_image_reuse diversity_penalty idx step used
    let rs := mapGo debug visual_items threshold request_context
      max_image_reuse diversity_penalty (idx + 1) r.2.1 rest
    (r.1 :: rs.1, rs.2.1, r.2.2 ++ rs.2.2)

/-- Model of `VisionMapper.map_steps_to_images(...)` returning both the
mapping list and the debug trace. -/
def map_steps_to_images_trace (steps : List String) (visual_items : List VisualItem)
    (threshold : ℚ) (debug : Bool) (request_context : String)
    (max_image_reuse : ℕ) (diversity_penalty : ℚ) :
    List Mapping × List TraceEvent :=
  let headerTr := if debug then
      TraceEvent.header steps.length visual_items.length threshold
        :: (if request_context ≠ "" then [TraceEvent.contextNote request_context] else [])
    else []
  let r := mapGo debug visual_items threshold request_context max_image_reuse
    diversity_penalty 0 (fun _ => 0) steps
  (r.1, headerTr ++ r.2.2)

/-- Model of `VisionMapper.map_steps_to_images(...)`: the returned mapping
list (the debug trace models the side-channel `print` output). -/
def map_steps_to_images (steps : List String) (visual_items : List VisualItem)
    (threshold : ℚ) (debug : Bool) (request_context : String)
    (max_image_reuse : ℕ) (diversity_penalty : ℚ) : List Mapping :=
  (map_steps_to_images_trace steps visual_items threshold debug request_context
    max_image_reuse diversity_penalty).1

/-! ## Image-file resolution (`process_simulation_with_vision`)

The pipeline resolves a matched `fileId` to an on-disk image by probing a
fixed list of paths and taking the first that exists.  The filesystem is
abstracted as a pure existence predicate on path strings. -/

/-- The `possible_paths` list of `process_simulation_with_vision`: the
filename as-is, then the extensions `.JPG`, `.jpg`, `.PNG`, `.png`,
`.JPEG`, `.jpeg` in that order. -/
def possible_paths (base_dir file_id : String) : List String :=
  [base_dir ++ "/" ++ file_id,
   base_dir ++ "/" ++ file_id ++ ".JPG",
   base_dir ++ "/" ++ file_id ++ ".jpg",
   base_dir ++ "/" ++ file_id ++ ".PNG",
   base_dir ++ "/" ++ file_id ++ ".png",
   base_dir ++ "/" ++ file_id ++ ".JPEG",
   base_dir ++ "/" ++ file_id ++ ".jpeg"]

/-- The probe loop of `process_simulation_with_vision`: first existing
path wins, `none` when no probe exists. -/
def resolve_image_path (fsExists : String → Bool) (base_dir file_id : String) :
    Option String :=
  (possible_paths base_dir file_id).find? fsExists

/-! ## `create_mapping_report`

The report builder formats the pipeline result; the mapping-rate line
divides `mapped_steps` by `total_steps`, so the function is embedded in
`Except` with Python's `ZeroDivisionError` as the error case. -/

/-- One entry of the pipeline result's `mappings` list; optional fields are
read back with `mapping.get(key, default)` (a `None` value and an absent
key format identically, so both are modelled by `none`). -/
structure ReportMapping where
  step_index : ℕ
  step : String
  file_id : Option String
  relevance_score : ℚ
  hotspot_text : String
  hotspot_type : Option String
  image_found : Bool
deriving DecidableEq, Repr

/-- The pipeline result consumed by `create_mapping_report`. -/
structure MappingResult where
  total_steps : ℕ
  mapped_steps : ℕ
  mappings : List ReportMapping
deriving DecidableEq, Repr

/-- Python true division on rationals: `ZeroDivisionError` on a zero
denominator. -/
def pyDiv (a b : ℚ) : Except String ℚ :=
  if b = 0 then Except.error "division by zero" else Except.ok (a / b)

/-- Round a rational to the nearest integer, ties to even (the rounding
used when Python formats a float with a fixed number of decimals). -/
def roundHalfEven (q : ℚ) : ℤ :=
  let f := Int.fdiv q.num (q.den : ℤ)
  let r := q - (f : ℚ)
  if r < 1/2 then f
  else if (1/2 : ℚ) < r then f + 1
  else if f % 2 = 0 then f else f + 1

/-- Format a rational with a fixed number of decimal digits (model of
Python's `format(x, '.Nf')`). -/
def formatFixed (digits : ℕ) (q : ℚ) : String :=
  let scaled := roundHalfEven (q * ((10 : ℚ) ^ digits))
  let sign := if scaled < 0 then "-" else ""
  let m := scaled.natAbs
  if digits = 0 then sign ++ toString m
  else
    let intPart := m / 10 ^ digits
    let fracPart := m % 10 ^ digits
    let fracStr := toString fracPart
    let padded := String.mk (List.replicate (digits - fracStr.length) '0') ++ fracStr
    sign ++ toString intPart ++ "." ++ padded

/-- Python `str` of a bool. -/
def pyBoolStr (b : Bool) : String :=
  if b then "True" else "False"

/-- The per-step block of the report. -/
def reportEntryLines (m : ReportMapping) : List String :=
  ["Step " ++ toString (m.step_index + 1) ++ ": " ++ m.step,
   "  Image: " ++ m.file_id.getD "None",
   "  Hotspot: " ++ m.hotspot_text,
   "  Type: " ++ m.hotspot_type.getD "N/A",
   "  Relevance: " ++ formatFixed 2 m.relevance_score,
   "  Image Found: " ++ pyBoolStr m.image_found,
   ""]

/-- Model of `create_mapping_report(mapping_result)`: header banner,
counts, mapping rate (division by `total_steps`), then one block per
mapping, joined with newlines; `ZeroDivisionError` when `total_steps`
is zero. -/
def create_mapping_report (mapping_result : MappingResult) : Except String String := do
  let bar := String.mk (List.replicate 70 '=')
  let rate ← pyDiv (mapping_result.mapped_steps : ℚ) (mapping_result.total_steps : ℚ)
  let headerLines :=
    [bar,
     "VISION-BASED STEP-TO-IMAGE MAPPING REPORT",
     bar,
     "Total Steps: " ++ toString mapping_result.total_steps,
     "Successfully Mapped: " ++ toString mapping_result.mapped_steps,
     "Mapping Rate: " ++ formatFixed 1 (rate * 100) ++ "%",
     bar,
     ""]
  let entryLines := mapping_result.mappings.flatMap reportEntryLines
  return String.intercalate "\n" (headerLines ++ entryLines)

/-! ## Specification-side definitions and concrete inputs

`sharedMeaningfulTokens*` follow the spec's wording for the
shared-meaningful-words block, to be compared with the code's block; the
`ex*` values are concrete inputs used by counterexamples and witnesses. -/

/-- The common (stop-word-free) tokens of step and hotspot text of length
strictly greater than 3 that are not generic terms. -/
def sharedMeaningfulTokens (step : String) (hotspot : Hotspot) : Finset String :=
  let hotspot_text := lowerStr ((normalize_hotspot hotspot (1200, 800)).text.getD "")
  ((stepWordSet step) ∩ (hotspotWordSet hotspot_text)).filter
    (fun w => 3 < w.length ∧ w ∉ generic_terms)

/-- The common (stop-word-free) tokens of step and hotspot text of length
strictly greater than 4 that are not generic terms (the set named by the
spec's description of the shared-meaningful-words block). -/
def sharedMeaningfulTokensGT4 (step : String) (hotspot : Hotspot) : Finset String :=
  let hotspot_text := lowerStr ((normalize_hotspot hotspot (1200, 800)).text.getD "")
  ((stepWordSet step) ∩ (hotspotWordSet hotspot_text)).filter
    (fun w => 4 < w.length ∧ w ∉ generic_terms)

/-- Alternate-schema hotspot `{name: "Submit", type: "button"}`. -/
def exHotspotSubmit : Hotspot := ⟨none, none, some "Submit", some "button", none⟩

/-- Alternate-schema hotspot `{name: "orders page"}`. -/
def exHotspotOrders : Hotspot := ⟨none, none, some "orders page", none, none⟩

/-- Alternate-schema hotspot with the `settings` key missing. -/
def exHotspotC3 : Hotspot := ⟨none, none, some "x", some "button", none⟩

/-- One visual item holding the Submit hotspot. -/
def exItems : List VisualItem := [⟨"imgA", [exHotspotSubmit]⟩]

/-- The normalized form of `exHotspotSubmit` under the default image size. -/
def exNormSubmit : Hotspot :=
  ⟨some "Submit", some ⟨0, 0, 120, 40⟩, none, some "button", none⟩

/-- The mapping produced for `"Click the Submit button"` against `exItems`. -/
def exMappingSubmit : Mapping :=
  ⟨0, "Click the Submit button", some "imgA", some exNormSubmit, 1.4, none⟩

/-- A filesystem containing exactly `d/X.jpg` and `d/X.JPG`. -/
def fsBoth : String → Bool :=
  fun p => p == "d/X.jpg" || p == "d/X.JPG"

/-- A pipeline result with zero total steps. -/
def exReportZero : MappingResult := ⟨0, 0, []⟩

/-- A pipeline result with one (unmapped) step. -/
def exReportOne : MappingResult :=
  ⟨1, 0, [⟨0, "s", none, 0, "No match found", none, false⟩]⟩

/-! ## Helper lemmas -/

/-- Auxiliary: `Char.ofNat` of a small valid scalar recovers the code point. -/
theorem toNat_ofNat_small (n : ℕ) (h : n < 1000) : (Char.ofNat n).toNat = n := by
  have hv : Nat.isValidChar n := Or.inl (by omega)
  simp [Char.ofNat, hv, Char.ofNatAux, Char.toNat, UInt32.toNat, UInt32.ofNatCore]

/-- Uppercasing after lowercasing an ASCII character is the same as
uppercasing directly. -/
theorem charUpper_charLower (c : Char) :
    Char.toUpper (Char.toLower c) = Char.toUpper c := by
  unfold Char.toLower Char.toUpper
  by_cases h : c.toNat ≥ 65 ∧ c.toNat ≤ 90
  · simp only [h, and_self, if_true]
    have ht : (Char.ofNat (c.toNat + 32)).toNat = c.toNat + 32 :=
      toNat_ofNat_small _ (by omega)
    rw [ht]
    have h97 : c.toNat + 32 ≥ 97 ∧ c.toNat + 32 ≤ 122 := by omega
    rw [if_pos h97]
    have hsub : c.toNat + 32 - 32 = c.toNat := by omega
    rw [hsub, Char.ofNat_toNat]
    have h2 : ¬ (c.toNat ≥ 97 ∧ c.toNat ≤ 122) := by omega
    rw [if_neg h2]
  · rw [if_neg h]

/-- Uppercasing a lowered string equals uppercasing the original string. -/
theorem upperStr_lowerStr (s : String) : upperStr (lowerStr s) = upperStr s := by
  unfold upperStr lowerStr
  cases s with
  | mk data =>
    simp only [List.map_map]
    congr 1
    exact List.map_congr_left fun c _ => charUpper_charLower c

/-- The shared-meaningful-words block equals `0.15` times the number of
common meaningful tokens, with the nested emptiness guards collapsed. -/
theorem sharedBonusOf_eq (common : Finset String) :
    sharedBonusOf common
      = 0.15 * ((common.filter (fun w => 3 < w.length ∧ w ∉ generic_terms)).card : ℚ) := by
  simp only [sharedBonusOf]
  by_cases h : common.Nonempty
  · rw [if_pos h]
    by_cases h2 : (common.filter (fun w => 3 < w.length ∧ w ∉ generic_terms)).Nonempty
    · rw [if_pos h2, mul_comm]
    · rw [if_neg h2]
      rw [Finset.not_nonempty_iff_eq_empty] at h2
      rw [h2]
      simp
  · rw [if_neg h]
    rw [Finset.not_nonempty_iff_eq_empty] at h
    rw [h, Finset.filter_empty]
    simp

/-- Python `max` over a candidate list returns one of its elements. -/
theorem foldl_pyMax_mem : ∀ (rest : List Candidate) (b : Candidate),
    pyMax b rest = b ∨ pyMax b rest ∈ rest := by
  intro rest
  induction rest with
  | nil => intro b; exact Or.inl rfl
  | cons d ds ih =>
    intro b
    have hstep : pyMax b (d :: ds)
        = pyMax (if b.adjusted_score < d.adjusted_score then d else b) ds := rfl
    rw [hstep]
    rcases ih (if b.adjusted_score < d.adjusted_score then d else b) with h | h
    · rw [h]
      by_cases hc : b.adjusted_score < d.adjusted_score
      · rw [if_pos hc]; exact Or.inr (List.mem_cons_self d ds)
      · rw [if_neg hc]; exact Or.inl rfl
    · exact Or.inr (List.mem_cons_of_mem d h)

/-- The selected best candidate is in the candidate list. -/
theorem pyMax_mem (c0 : Candidate) (rest : List Candidate) : pyMax c0 rest ∈ c0 :: rest := by
  rcases foldl_pyMax_mem rest c0 with h | h
  · rw [h]; exact List.mem_cons_self _ _
  · exact List.mem_cons_of_mem _ h

/-- Insertion preserves membership (downward). -/
theorem mem_insertDesc (x c : Candidate) :
    ∀ (l : List Candidate), x ∈ insertDesc c l → x = c ∨ x ∈ l := by
  intro l
  induction l with
  | nil =>
    intro h
    simp only [insertDesc, List.mem_singleton] at h
    exact Or.inl h
  | cons d ds ih =>
    intro h
    simp only [insertDesc] at h
    by_cases hc : d.adjusted_score ≤ c.adjusted_score
    · rw [if_pos hc] at h
      rcases List.mem_cons.mp h with h1 | h2
      · exact Or.inl h1
      · exact Or.inr h2
    · rw [if_neg hc] at h
      rcases List.mem_cons.mp h with h1 | h2
      · exact Or.inr (h1 ▸ List.mem_cons_self d ds)
      · rcases ih h2 with h3 | h4
        · exact Or.inl h3
        · exact Or.inr (List.mem_cons_of_mem d h4)

/-- Sorting preserves membership (downward). -/
theorem mem_sortDesc (x : Candidate) :
    ∀ (l : List Candidate), x ∈ sortDesc l → x ∈ l := by
  intro l
  induction l with
  | nil => intro h; simp [sortDesc] at h
  | cons c cs ih =>
    intro h
    simp only [sortDesc] at h
    rcases mem_insertDesc x c _ h with h1 | h2
    · exact h1 ▸ List.mem_cons_self c cs
    · exact List.mem_cons_of_mem c (ih h2)

/-- Any assigned candidate comes from the candidate list, and its image is
below the reuse cap at selection time. -/
theorem choiceOf_assign (cands : List Candidate) (used : String → ℕ) (k : ℕ) (c : Candidate)
    (h : choiceOf cands used k = Choice.primary c
      ∨ choiceOf cands used k = Choice.alternative c) :
    c ∈ cands ∧ used c.file_id < k := by
  cases cands with
  | nil => rcases h with h | h <;> simp [choiceOf] at h
  | cons c0 rest =>
    by_cases hb : used (pyMax c0 rest).file_id < k
    · have hch : choiceOf (c0 :: rest) used k = Choice.primary (pyMax c0 rest) := by
        simp [choiceOf, hb]
      rcases h with h | h
      · rw [hch] at h
        injection h with h'
        exact h' ▸ ⟨pyMax_mem c0 rest, hb⟩
      · rw [hch] at h; exact Choice.noConfusion h
    · rcases hf : ((sortDesc (c0 :: rest)).drop 1).find?
          (fun x => decide (used x.file_id < k)) with _ | c'
      · have hch : choiceOf (c0 :: rest) used k = Choice.exhausted := by
          simp only [choiceOf]
          rw [if_neg hb, hf]
        rcases h with h | h <;> rw [hch] at h <;> exact Choice.noConfusion h
      · have hch : choiceOf (c0 :: rest) used k = Choice.alternative c' := by
          simp only [choiceOf]
          rw [if_neg hb, hf]
        have hcm : c' ∈ c0 :: rest :=
          mem_sortDesc c' _ (List.mem_of_mem_drop (List.mem_of_find?_eq_some hf))
        have hp := List.find?_some hf
        rw [decide_eq_true_eq] at hp
        have hlt : used c'.file_id < k := hp
        rcases h with h | h
        · rw [hch] at h; exact Choice.noConfusion h
        · rw [hch] at h
          injection h with h'
          exact h' ▸ ⟨hcm, hlt⟩

/-- Every candidate's stored hotspot is the normalization of a non-AUDIO
hotspot of one of the visual items. -/
theorem candidatesFor_mem (items : List VisualItem) (step ctx : String) (thr : ℚ)
    (used : String → ℕ) (dp : ℚ) (c : Candidate)
    (h : c ∈ candidatesFor items step ctx thr used dp) :
    ∃ v ∈ items, ∃ hs ∈ v.hotspots, nonAudioB hs = true ∧
      c.hotspot = normalize_hotspot hs (1200, 800) := by
  simp only [candidatesFor] at h
  rcases List.mem_flatMap.mp h with ⟨v, hv, hc⟩
  rcases List.mem_filterMap.mp hc with ⟨hs, hhs, heq⟩
  have hmem := List.mem_filter.mp hhs
  refine ⟨v, hv, hs, hmem.1, hmem.2, ?_⟩
  by_cases hsc : thr ≤ calculate_relevance_score step hs ctx
  · rw [if_pos hsc] at heq
    injection heq with h'
    rw [← h']
  · rw [if_neg hsc] at heq
    exact Option.noConfusion heq

/-- When every non-AUDIO hotspot scores below the threshold, the candidate
list is empty. -/
theorem candidatesFor_eq_nil (items : List VisualItem) (step ctx : String) (thr : ℚ)
    (used : String → ℕ) (dp : ℚ)
    (h : ∀ v ∈ items, ∀ hs ∈ v.hotspots, nonAudioB hs = true →
      calculate_relevance_score step hs ctx < thr) :
    candidatesFor items step ctx thr used dp = [] := by
  simp only [candidatesFor]
  rw [List.flatMap_eq_nil_iff]
  intro v hv
  rw [List.filterMap_eq_nil_iff]
  intro hs hhs
  have hmem := List.mem_filter.mp hhs
  have hlt := h v hv hs hmem.1 hmem.2
  exact if_neg (not_le.mpr hlt)

/-- Normalization cannot turn a non-AUDIO hotspot into an AUDIO one: the
standard-schema branch is the identity, and the alternate branch lowers the
type (possibly through `type_mapping`), which preserves its uppercasing. -/
theorem nonAudio_normalize (hs : Hotspot) (sz : ℤ × ℤ) (h : nonAudioB hs = true) :
    nonAudioB (normalize_hotspot hs sz) = true := by
  unfold normalize_hotspot
  by_cases hstd : hs.text.isSome ∧ hs.coordinates.isSome
  · rw [if_pos hstd]; exact h
  · rw [if_neg hstd]
    unfold nonAudioB at h ⊢
    rw [bne_iff_ne] at h ⊢
    simp only [Option.getD_some]
    intro hcontra
    apply h
    by_cases h1 : lowerStr (hs.hotspotType.getD "") = "button"
    · rw [h1] at hcontra
      exact absurd hcontra (by decide)
    · by_cases h2 : lowerStr (hs.hotspotType.getD "") = "text_field"
      · rw [h2] at hcontra
        exact absurd hcontra (by decide)
      · by_cases h3 : lowerStr (hs.hotspotType.getD "") = "audio"
        · rw [← upperStr_lowerStr (hs.hotspotType.getD ""), h3]
          decide
        · by_cases h4 : lowerStr (hs.hotspotType.getD "") = "highlight"
          · rw [h4] at hcontra
            exact absurd hcontra (by decide)
          · have hmiss : lookupStr type_mapping (lowerStr (hs.hotspotType.getD ""))
                (lowerStr (hs.hotspotType.getD "")) = lowerStr (hs.hotspotType.getD "") := by
              simp only [lookupStr, type_mapping, List.find?]
              rw [show (("button" : String) == lowerStr (hs.hotspotType.getD "")) = false from
                  beq_eq_false_iff_ne.mpr (Ne.symm h1),
                show (("text_field" : String) == lowerStr (hs.hotspotType.getD "")) = false from
                  beq_eq_false_iff_ne.mpr (Ne.symm h2),
                show (("audio" : String) == lowerStr (hs.hotspotType.getD "")) = false from
                  beq_eq_false_iff_ne.mpr (Ne.symm h3),
                show (("highlight" : String) == lowerStr (hs.hotspotType.getD "")) = false from
                  beq_eq_false_iff_ne.mpr (Ne.symm h4)]
            rw [hmiss] at hcontra
            rw [upperStr_lowerStr] at hcontra
            exact hcontra

/-- Case analysis on one step of the assignment loop: either some candidate
is assigned (counter bumped, cap respected at assignment time) or the step
keeps the default mapping and the counter is unchanged. -/
theorem processStep_cases (debug : Bool) (items : List VisualItem) (thr : ℚ)
    (ctx : String) (k : ℕ) (dp : ℚ) (idx : ℕ) (step : String) (used : String → ℕ) :
    (∃ c, c ∈ candidatesFor items step ctx thr used dp ∧ used c.file_id < k ∧
      (processStep debug items thr ctx k dp idx step used).1 = assignedMapping idx step c ∧
      (processStep debug items thr ctx k dp idx step used).2.1 = bump used c.file_id)
    ∨ ((processStep debug items thr ctx k dp idx step used).1 = defaultMapping idx step ∧
      (processStep debug items thr ctx k dp idx step used).2.1 = used) := by
  rcases hch : choiceOf (candidatesFor items step ctx thr used dp) used k with _ | c | c | _
  · right
    constructor <;> simp [processStep, hch]
  · left
    rcases choiceOf_assign _ _ _ _ (Or.inl hch) with ⟨hm, hlt⟩
    exact ⟨c, hm, hlt, by simp [processStep, hch], by simp [processStep, hch]⟩
  · left
    rcases choiceOf_assign _ _ _ _ (Or.inr hch) with ⟨hm, hlt⟩
    exact ⟨c, hm, hlt, by simp [processStep, hch], by simp [processStep, hch]⟩
  · right
    constructor <;> simp [processStep, hch]

/-- The mapping and counter produced by one step do not depend on the debug
flag (only the trace component does). -/
theorem processStep_debug (items : List VisualItem) (thr : ℚ) (ctx : String)
    (k : ℕ) (dp : ℚ) (idx : ℕ) (step : String) (used : String → ℕ) :
    (processStep true items thr ctx k dp idx step used).1
      = (processStep false items thr ctx k dp idx step used).1 ∧
    (processStep true items thr ctx k dp idx step used).2.1
      = (processStep false items thr ctx k dp idx step used).2.1 := by
  rcases hch : choiceOf (candidatesFor items step ctx thr used dp) used k with _ | c | c | _ <;>
    exact ⟨by simp [processStep, hch], by simp [processStep, hch]⟩

/-- The mapping list of the assignment loop does not depend on the debug
flag. -/
theorem mapGo_debug (items : List VisualItem) (thr : ℚ) (ctx : String) (k : ℕ) (dp : ℚ) :
    ∀ (steps : List String) (idx : ℕ) (used : String → ℕ),
      (mapGo true items thr ctx k dp idx used steps).1
        = (mapGo false items thr ctx k dp idx used steps).1 := by
  intro steps
  induction steps with
  | nil => intro idx used; rfl
  | cons s ss ih =>
    intro idx used
    have h := processStep_debug items thr ctx k dp idx s used
    simp only [mapGo]
    rw [h.1, h.2]
    rw [ih (idx + 1) ((processStep false items thr ctx k dp idx s used).2.1)]

/-- Every hotspot stored in a mapping produced by the assignment loop is
non-AUDIO. -/
theorem mapGo_no_audio (debug : Bool) (items : List VisualItem) (thr : ℚ)
    (ctx : String) (k : ℕ) (dp : ℚ) :
    ∀ (steps : List String) (idx : ℕ) (used : String → ℕ) (m : Mapping),
      m ∈ (mapGo debug items thr ctx k dp idx used steps).1 →
      ∀ nh, m.hotspot = some nh → nonAudioB nh = true := by
  intro steps
  induction steps with
  | nil => intro idx used m hm; simp [mapGo] at hm
  | cons s ss ih =>
    intro idx used m hm nh hnh
    simp only [mapGo] at hm
    rcases List.mem_cons.mp hm with h1 | h2
    · rcases processStep_cases debug items thr ctx k dp idx s used with
        ⟨c, hcm, _, hfst, _⟩ | ⟨hfst, _⟩
      · rw [h1, hfst] at hnh
        injection hnh with h3
        rcases candidatesFor_mem items s ctx thr used dp c hcm with ⟨v, _, hs, _, hna, hre⟩
        rw [← h3, hre]
        exact nonAudio_normalize hs _ hna
      · rw [h1, hfst] at hnh
        exact Option.noConfusion hnh
    · exact ih (idx + 1) _ m h2 nh hnh

/-- Reuse-cap invariant of the assignment loop: starting from a reuse count
for `f` that is at most `k`, the number of produced mappings assigned to
image `f` plus that count stays at most `k`. -/
theorem mapGo_count (debug : Bool) (items : List VisualItem) (thr : ℚ)
    (ctx : String) (k : ℕ) (dp : ℚ) (f : String) :
    ∀ (steps : List String) (idx : ℕ) (used : String → ℕ), used f ≤ k →
      (mapGo debug items thr ctx k dp idx used steps).1.countP
        (fun m => decide (m.file_id = some f)) + used f ≤ k := by
  intro steps
  induction steps with
  | nil =>
    intro idx used hu
    simpa only [mapGo, List.countP_nil, Nat.zero_add] using hu
  | cons s ss ih =>
    intro idx used hu
    simp only [mapGo]
    rcases processStep_cases debug items thr ctx k dp idx s used with
      ⟨c, _, hlt, hfst, hsnd⟩ | ⟨hfst, hsnd⟩
    · rw [hfst, hsnd, List.countP_cons]
      by_cases hf : c.file_id = f
      · subst hf
        have hpred : (decide ((assignedMapping idx s c).file_id = some c.file_id)) = true := by
          simp [assignedMapping]
        rw [hpred, if_pos rfl]
        have hb : bump used c.file_id c.file_id = used c.file_id + 1 := by simp [bump]
        have hih := ih (idx + 1) (bump used c.file_id) (by rw [hb]; omega)
        rw [hb] at hih
        omega
      · have hpred : (decide ((assignedMapping idx s c).file_id = some f)) = false := by
          simp only [assignedMapping, decide_eq_false_iff_not, Option.some.injEq]
          intro hcc
          exact hf hcc
        rw [hpred, if_neg Bool.false_ne_true]
        have hb : bump used c.file_id f = used f := by
          simp only [bump]
          rw [if_neg (fun hx => hf hx.symm)]
        have hih := ih (idx + 1) (bump used c.file_id) (by rw [hb]; exact hu)
        rw [hb] at hih
        omega
    · rw [hfst, hsnd, List.countP_cons]
      have hpred : (decide ((defaultMapping idx s).file_id = some f)) = false := by
        simp [defaultMapping]
      rw [hpred, if_neg Bool.false_ne_true]
      have hih := ih (idx + 1) used hu
      omega

/-- When every non-AUDIO hotspot scores below the threshold for the `n`-th
remaining step, that step's produced mapping is the default one. -/
theorem mapGo_below (debug : Bool) (items : List VisualItem) (thr : ℚ)
    (ctx : String) (k : ℕ) (dp : ℚ) :
    ∀ (steps : List String) (idx : ℕ) (used : String → ℕ) (n : ℕ) (step : String),
      steps[n]? = some step →
      (∀ v ∈ items, ∀ hs ∈ v.hotspots, nonAudioB hs = true →
        calculate_relevance_score step hs ctx < thr) →
      ((mapGo debug items thr ctx k dp idx used steps).1)[n]?
        = some (defaultMapping (idx + n) step) := by
  intro steps
  induction steps with
  | nil => intro idx used n step h; simp at h
  | cons s ss ih =>
    intro idx used n step hn hall
    cases n with
    | zero =>
      rw [List.getElem?_cons_zero] at hn
      injection hn with hn'
      subst hn'
      simp only [mapGo, List.getElem?_cons_zero, Nat.add_zero]
      have hnil := candidatesFor_eq_nil items s ctx thr used dp hall
      have hfst : (processStep debug items thr ctx k dp idx s used).1
          = defaultMapping idx s := by
        simp [processStep, hnil, choiceOf]
      rw [hfst]
    | succ n' =>
      rw [List.getElem?_cons_succ] at hn
      simp only [mapGo, List.getElem?_cons_succ]
      have hrec := ih (idx + 1) ((processStep debug items thr ctx k dp idx s used)).2.1
        n' step hn hall
      rw [hrec]
      have : idx + 1 + n' = idx + (n' + 1) := by omega
      rw [this]

/-! ## Claim theorems -/

/-- C1: for every step text, hotspot record, and request-context string,
`calculate_relevance_score` returns a value lying in the closed interval
`[0.0, 2.0]`. -/
theorem c1_score_bounded (step : String) (hotspot : Hotspot) (request_context : String) :
    0 ≤ calculate_relevance_score step hotspot request_context ∧
      calculate_relevance_score step hotspot request_context ≤ 2 := by
  unfold calculate_relevance_score
  exact ⟨le_max_left 0 _, max_le (by norm_num) (min_le_right _ 2)⟩

/-- C2: for every call to `map_steps_to_images` with `max_image_reuse = k`
and every `fileId`, at most `k` of the returned mappings carry that
`fileId` as their chosen match. -/
theorem c2_reuse_cap (steps : List String) (visual_items : List VisualItem)
    (threshold : ℚ) (debug : Bool) (request_context : String)
    (max_image_reuse : ℕ) (diversity_penalty : ℚ) (fileId : String) :
    (map_steps_to_images steps visual_items threshold debug request_context
        max_image_reuse diversity_penalty).countP
      (fun m => decide (m.file_id = some fileId)) ≤ max_image_reuse := by
  have h := mapGo_count debug visual_items threshold request_context max_image_reuse
    diversity_penalty fileId steps 0 (fun _ => 0) (Nat.zero_le _)
  simpa [map_steps_to_images, map_steps_to_images_trace] using h

/-- C3 (amended): for every alternate-schema hotspot in which the
`settings` field is missing, `normalize_hotspot` does not raise (it is
total) and returns the denormalized default box: `settings` defaults to an
empty mapping, so the normalized fractions `positionX=0, positionY=0,
width=0.1, height=0.05` are scaled by the default image size `(1200, 800)`,
giving pixel box `x=0, y=0, width=120, height=40`.  The fixed box
`(0, 0, 100, 40)` is returned only when `settings` is present but not a
mapping. -/
theorem c3_missing_settings_default (hotspot : Hotspot)
    (hset : hotspot.settings = none)
    (hstd : ¬(hotspot.text.isSome ∧ hotspot.coordinates.isSome)) :
    (normalize_hotspot hotspot (1200, 800)).coordinates
      = some ⟨0, 0, 120, 40⟩ := by
  unfold normalize_hotspot
  rw [if_neg hstd, hset]
  change some _ = some (⟨0, 0, 120, 40⟩ : Coordinates)
  decide

/-- C3 (counterexample): a hotspot with no `settings` key normalizes to the
pixel box `(0, 0, 120, 40)`, not the fixed default `(0, 0, 100, 40)`
claimed for missing `settings`. -/
theorem c3_counterexample :
    (normalize_hotspot exHotspotC3 (1200, 800)).coordinates = some ⟨0, 0, 120, 40⟩ ∧
      (⟨0, 0, 120, 40⟩ : Coordinates) ≠ ⟨0, 0, 100, 40⟩ := by decide

/-- C3 (witness): the amended statement applied to the concrete hotspot
`{name: "x", type: "button"}`. -/
theorem c3_witness :
    exHotspotC3.settings = none ∧
      ¬(exHotspotC3.text.isSome ∧ exHotspotC3.coordinates.isSome) ∧
      (normalize_hotspot exHotspotC3 (1200, 800)).coordinates = some ⟨0, 0, 120, 40⟩ :=
  ⟨rfl, by decide, c3_missing_settings_default exHotspotC3 rfl (by decide)⟩

/-- C4: no mapping returned by `map_steps_to_images` carries a matched
hotspot whose type uppercases to `AUDIO`: AUDIO-typed hotspots are skipped
before scoring, and normalization cannot introduce the type. -/
theorem c4_no_audio (steps : List String) (visual_items : List VisualItem)
    (threshold : ℚ) (debug : Bool) (request_context : String)
    (max_image_reuse : ℕ) (diversity_penalty : ℚ) (m : Mapping) (nh : Hotspot)
    (hm : m ∈ map_steps_to_images steps visual_items threshold debug request_context
      max_image_reuse diversity_penalty)
    (hh : m.hotspot = some nh) :
    upperStr (nh.hotspotType.getD "") ≠ "AUDIO" := by
  have hm' : m ∈ (mapGo debug visual_items threshold request_context max_image_reuse
      diversity_penalty 0 (fun _ => 0) steps).1 := by
    simpa [map_steps_to_images, map_steps_to_images_trace] using hm
  have h := mapGo_no_audio debug visual_items threshold request_context max_image_reuse
    diversity_penalty steps 0 (fun _ => 0) m hm' nh hh
  simpa [nonAudioB, bne_iff_ne] using h

/-- C4 (witness): a concrete run in which a mapping with a matched hotspot
is produced, and that hotspot's type is not AUDIO. -/
theorem c4_witness :
    exMappingSubmit ∈ map_steps_to_images ["Click the Submit button"] exItems
        0.15 false "" 3 0.15 ∧
      exMappingSubmit.hotspot = some exNormSubmit ∧
      upperStr (exNormSubmit.hotspotType.getD "") ≠ "AUDIO" :=
  ⟨by decide, by decide,
   c4_no_audio ["Click the Submit button"] exItems 0.15 false "" 3 0.15
     exMappingSubmit exNormSubmit (by decide) (by decide)⟩

/-- C5: for every step of a `map_steps_to_images` call, if no non-AUDIO
hotspot reaches the threshold for that step, the step's returned mapping
has `file_id = None`, `hotspot = None`, and `relevance_score = 0.0`. -/
theorem c5_below_threshold_null (steps : List String) (visual_items : List VisualItem)
    (threshold : ℚ) (debug : Bool) (request_context : String)
    (max_image_reuse : ℕ) (diversity_penalty : ℚ) (i : ℕ) (step : String)
    (hs : steps[i]? = some step)
    (hall : ∀ v ∈ visual_items, ∀ h ∈ v.hotspots, nonAudioB h = true →
      calculate_relevance_score step h request_context < threshold) :
    (map_steps_to_images steps visual_items threshold debug request_context
        max_image_reuse diversity_penalty)[i]?
      = some ⟨i, step, none, none, 0, none⟩ := by
  have h := mapGo_below debug visual_items threshold request_context max_image_reuse
    diversity_penalty steps 0 (fun _ => 0) i step hs hall
  simpa [map_steps_to_images, map_steps_to_images_trace, defaultMapping] using h

/-- C5 (witness): with no visual items at all, the single step's mapping is
the null mapping with score `0.0`. -/
theorem c5_witness :
    ((["hello"] : List String)[0]? = some "hello") ∧
      (map_steps_to_images ["hello"] [] 0.15 false "" 3 0.15)[0]?
        = some ⟨0, "hello", none, none, 0, none⟩ :=
  ⟨rfl, c5_below_threshold_null ["hello"] [] 0.15 false "" 3 0.15 0 "hello" rfl
    (fun v hv => absurd hv (List.not_mem_nil v))⟩

/-- C6 (amended): in the shared-meaningful-words block of
`calculate_relevance_score`, exactly the common (stop-word-free) tokens of
length strictly greater than 3 that are not generic terms contribute, each
adding `0.15`. -/
theorem c6_shared_words_bonus (step : String) (hotspot : Hotspot) (request_context : String) :
    (scoreParts step hotspot request_context).sharedBonus
      = 0.15 * ((sharedMeaningfulTokens step hotspot).card : ℚ) := by
  have h : (scoreParts step hotspot request_context).sharedBonus
      = sharedBonusOf ((stepWordSet step) ∩ (hotspotWordSet
        (lowerStr ((normalize_hotspot hotspot (1200, 800)).text.getD "")))) := rfl
  rw [h, sharedBonusOf_eq]
  rfl

/-- C6 (counterexample): for the step `"open the orders page"` and hotspot
`{name: "orders page"}` the block contributes `0.3` (both `orders` and the
4-letter token `page` count), while under the claimed length-`> 4` rule it
would contribute only `0.15`. -/
theorem c6_counterexample :
    (scoreParts "open the orders page" exHotspotOrders "").sharedBonus = 0.3 ∧
      0.15 * ((sharedMeaningfulTokensGT4 "open the orders page" exHotspotOrders).card : ℚ)
        = 0.15 ∧
      (0.3 : ℚ) ≠ 0.15 := by decide

/-- C7 (amended): for the step `"Click the Submit button"` and hotspot
`{name: "Submit", type: "button"}` with empty context, the accumulated
total includes the `+1.2` exact-target bonus and the `+0.35` button/click
alignment bonus together with the `-0.15` generic-name penalty (`submit` is
a generic term), so the total before clamping is `1.4`; it exceeds `1.5`
only with the generic penalty excluded (`1.2 + 0.35 = 1.55 > 1.5`), and
the clamp leaves `1.4` unchanged. -/
theorem c7_submit_scenario :
    (scoreParts "Click the Submit button" exHotspotSubmit "").targetBonus = 1.2 ∧
      (scoreParts "Click the Submit button" exHotspotSubmit "").typeBonus = 0.35 ∧
      (scoreParts "Click the Submit button" exHotspotSubmit "").genericPenalty = -0.15 ∧
      preClampScore "Click the Submit button" exHotspotSubmit "" = 1.4 ∧
      calculate_relevance_score "Click the Submit button" exHotspotSubmit "" = 1.4 ∧
      preClampScore "Click the Submit button" exHotspotSubmit ""
          - (scoreParts "Click the Submit button" exHotspotSubmit "").genericPenalty
        = 1.55 ∧
      (1.5 : ℚ) < 1.55 := by decide

/-- C7 (counterexample): both bonuses are included, yet the total before
clamping is `1.4` and does not exceed `1.5` (the claim overlooks the
`-0.15` generic-name penalty for the hotspot text `submit`). -/
theorem c7_counterexample :
    (scoreParts "Click the Submit button" exHotspotSubmit "").targetBonus = 1.2 ∧
      (scoreParts "Click the Submit button" exHotspotSubmit "").typeBonus = 0.35 ∧
      ¬ (1.5 : ℚ) < preClampScore "Click the Submit button" exHotspotSubmit "" := by decide

/-- C8 (amended): image-file resolution probes the filename as-is first and
then the fixed extension sequence `.JPG, .jpg, .PNG, .png, .JPEG, .jpeg`,
choosing the first existing path; in particular, when the extensionless
path does not exist, the uppercase `.JPG` variant is attempted (and wins)
before the lowercase `.jpg` variant, deterministically. -/
theorem c8_probe_order (fsExists : String → Bool) (base_dir file_id : String) :
    (fsExists (base_dir ++ "/" ++ file_id) = true →
      resolve_image_path fsExists base_dir file_id
        = some (base_dir ++ "/" ++ file_id)) ∧
    (fsExists (base_dir ++ "/" ++ file_id) = false →
      fsExists (base_dir ++ "/" ++ file_id ++ ".JPG") = true →
      resolve_image_path fsExists base_dir file_id
        = some (base_dir ++ "/" ++ file_id ++ ".JPG")) := by
  constructor
  · intro h1
    simp [resolve_image_path, possible_paths, List.find?, h1]
  · intro h1 h2
    simp [resolve_image_path, possible_paths, List.find?, h1, h2]

/-- C8 (counterexample): in a directory holding both `X.jpg` and `X.JPG`,
resolution picks the uppercase `X.JPG`, not the lowercase variant the claim
says is attempted first. -/
theorem c8_counterexample :
    resolve_image_path fsBoth "d" "X" = some "d/X.JPG" ∧
      fsBoth "d/X.jpg" = true ∧
      ("d/X.JPG" : String) ≠ "d/X.jpg" := by decide

/-- C8 (witness): the amended probe-order statement applied to the concrete
two-file directory. -/
theorem c8_witness :
    fsBoth ("d" ++ "/" ++ "X") = false ∧
      fsBoth ("d" ++ "/" ++ "X" ++ ".JPG") = true ∧
      resolve_image_path fsBoth "d" "X" = some ("d" ++ "/" ++ "X" ++ ".JPG") :=
  ⟨by decide, by decide, (c8_probe_order fsBoth "d" "X").2 (by decide) (by decide)⟩

/-- C9: for every input, running `map_steps_to_images` with `debug = True`
returns the same mapping list as with `debug = False`; the flag only
controls the emitted trace. -/
theorem c9_debug_no_effect (steps : List String) (visual_items : List VisualItem)
    (threshold : ℚ) (request_context : String) (max_image_reuse : ℕ)
    (diversity_penalty : ℚ) :
    map_steps_to_images steps visual_items threshold true request_context
        max_image_reuse diversity_penalty
      = map_steps_to_images steps visual_items threshold false request_context
        max_image_reuse diversity_penalty := by
  simp only [map_steps_to_images, map_steps_to_images_trace]
  exact mapGo_debug visual_items threshold request_context max_image_reuse
    diversity_penalty steps 0 (fun _ => 0)

/-- C10: `create_mapping_report` is partial at its interface: a result with
`total_steps = 0` hits a division by zero while computing the mapping rate,
and a formatted report is returned exactly when `total_steps > 0`. -/
theorem c10_report_zero_div (r : MappingResult) :
    (r.total_steps = 0 → create_mapping_report r = Except.error "division by zero") ∧
    (0 < r.total_steps → (create_mapping_report r).isOk = true) := by
  constructor
  · intro h
    simp [create_mapping_report, pyDiv, h, Except.bind]
  · intro h
    have hne : ((r.total_steps : ℚ)) ≠ 0 :=
      Nat.cast_ne_zero.mpr (by omega)
    simp [create_mapping_report, pyDiv, hne, Except.bind, Except.isOk, Except.toBool]

/-- C10 (witness): the zero-step result errors and a one-step result yields
a report. -/
theorem c10_witness :
    create_mapping_report exReportZero = Except.error "division by zero" ∧
      (create_mapping_report exReportOne).isOk = true :=
  ⟨(c10_report_zero_div exReportZero).1 rfl,
   (c10_report_zero_div exReportOne).2 (by decide)⟩

end VisionMapper
